import Mathlib

/-!
# gocmd: the SSH command runner (`ssh.go`)

A shallow embedding of `SSHClient.RunCommand`, `SSHClient.prepareCommand`,
`SSHClient.newSession` and `RunSSHCommand`.

The SSH transport (`golang.org/x/crypto/ssh`) is external to the program. It is
represented by a `World`: a function that, given the events that happened so far
and the operation now requested, answers with `none` (the call succeeded) or
`some err` (the call returned the non-nil error `err`). Every function of the
program takes the history before the call and returns its result together with
the events it produced, in order.
-/

namespace Gocmd

/-! ## Data model -/

/-- A non-nil Go `error`, represented by its message (`err.Error()`); a nil error
is `none` in `Option GoError`. -/
abbrev GoError := String

/-- An `io.Reader` / `io.Writer` value; only its identity matters here. -/
inductive Stream where
  | osStdin
  | osStdout
  | osStderr
  | other (id : Nat)
  deriving DecidableEq

/-- An `ssh.AuthMethod` value. -/
inductive AuthMethod where
  | publicKeysCallback
  | publicKeys (file : String)
  deriving DecidableEq

/-- The fields of `ssh.ClientConfig` that `RunSSHCommand` fills in. An entry of
`Auth` is `none` when the resolver returned `nil`. -/
structure ClientConfig where
  User : String
  Auth : List (Option AuthMethod)
  deriving DecidableEq

/-- The struct `SSHCommand`; a nil stream is `none`. -/
structure SSHCommand where
  Path : String
  Env : List String
  Stdin : Option Stream
  Stdout : Option Stream
  Stderr : Option Stream
  deriving DecidableEq

/-- The struct `SSHClient`. -/
structure SSHClient where
  Config : ClientConfig
  Host : String
  Port : Int
  deriving DecidableEq

/-- One end of an `io.Copy`: a pipe of the session or a stream of the command. -/
inductive Endpoint where
  | sessionStdin
  | sessionStderr
  | stream (s : Stream)
  deriving DecidableEq

/-- The operations of the transport and of a session. `RequestPty` has the
parameter order of `ssh.Session.RequestPty(term string, h, w int, termmodes)`:
`h` is the height in rows and `w` the width in columns. `StdoutPipe` and
`SetStdout` (assigning `session.Stdout`) are operations a session offers; they
are listed so that their absence from a run can be stated. `GoCopy dst src` is
the statement `go io.Copy(dst, src)`: only the start of the copy is an event. -/
inductive Op where
  | Dial (network addr : String) (config : ClientConfig)
  | NewSession
  | RequestPty (term : String) (h w : Nat) (modes : List (Nat × Nat))
  | Setenv (name value : String)
  | StdinPipe
  | StdoutPipe
  | StderrPipe
  | SetStdout (s : Stream)
  | GoCopy (dst src : Endpoint)
  | Run (cmd : String)
  | Close
  deriving DecidableEq

/-- An operation together with the error it returned (`none` for nil). -/
structure Event where
  op : Op
  err : Option GoError
  deriving DecidableEq

/-- The transport: the answer to an operation, given the events before it. -/
abbrev World := List Event → Op → Option GoError

/-- The opcode `ssh.TTY_OP_ISPEED`. -/
def TTY_OP_ISPEED : Nat := 128

/-- The opcode `ssh.TTY_OP_OSPEED`. -/
def TTY_OP_OSPEED : Nat := 129

/-! ## Library functions -/

/-- Splits a list of characters at every occurrence of `sep`. -/
def splitChars (sep : Char) : List Char → List (List Char)
  | [] => [[]]
  | c :: cs =>
    if c = sep then [] :: splitChars sep cs
    else
      match splitChars sep cs with
      | [] => [[c]]
      | p :: ps => (c :: p) :: ps

/-- The call `strings.Split(s, sep)` for a separator of one ASCII character, the
only way the program calls it (`sep` is `"="`): all the substrings of `s`
between occurrences of `sep`, one more than there are occurrences. -/
def Split (s : String) (sep : Char) : List String :=
  (splitChars sep s.data).map String.mk

/-- The call `fmt.Errorf(text + "%s", err)` (or `"%v"`): an error whose message
is `text` followed by the message of `err`. -/
def Errorf (text : String) (err : GoError) : GoError := text ++ err

/-- The call `fmt.Sprintf("%s:%d", host, port)`. -/
def Sprintf_addr (host : String) (port : Int) : String :=
  host ++ ":" ++ toString port

/-! ## The program -/

/-- The loop `for _, env := range cmd.Env` of `prepareCommand`: the error it
returns from inside the loop, if any, and the events it produced. -/
def setenvLoop (w : World) : List Event → List String → Option GoError × List Event
  | _, [] => (none, [])
  | hist, env :: rest =>
    match Split env '=' with
    | [name, value] =>
      match w hist (Op.Setenv name value) with
      | some err => (some err, [⟨Op.Setenv name value, some err⟩])
      | none =>
        let r := setenvLoop w (hist ++ [⟨Op.Setenv name value, none⟩]) rest
        (r.1, ⟨Op.Setenv name value, none⟩ :: r.2)
    | _ => setenvLoop w hist rest

/-- The block `if cmd.Stdin != nil { ... }` of `prepareCommand`. -/
def setupStdin (w : World) (hist : List Event) (cmd : SSHCommand) :
    Option GoError × List Event :=
  match cmd.Stdin with
  | none => (none, [])
  | some src =>
    match w hist Op.StdinPipe with
    | some err =>
      (some (Errorf "Unable to setup stdin for session: " err), [⟨Op.StdinPipe, some err⟩])
    | none =>
      (none, [⟨Op.StdinPipe, none⟩, ⟨Op.GoCopy Endpoint.sessionStdin (Endpoint.stream src), none⟩])

/-- The block `if cmd.Stderr != nil { ... }` of `prepareCommand`. -/
def setupStderr (w : World) (hist : List Event) (cmd : SSHCommand) :
    Option GoError × List Event :=
  match cmd.Stderr with
  | none => (none, [])
  | some dst =>
    match w hist Op.StderrPipe with
    | some err =>
      (some (Errorf "Unable to setup stderr for session: " err), [⟨Op.StderrPipe, some err⟩])
    | none =>
      (none, [⟨Op.StderrPipe, none⟩, ⟨Op.GoCopy (Endpoint.stream dst) Endpoint.sessionStderr, none⟩])

/-- The method `SSHClient.prepareCommand`. -/
def prepareCommand (w : World) (hist : List Event) (cmd : SSHCommand) :
    Option GoError × List Event :=
  match setenvLoop w hist cmd.Env with
  | (some err, t1) => (some err, t1)
  | (none, t1) =>
    match setupStdin w (hist ++ t1) cmd with
    | (some err, t2) => (some err, t1 ++ t2)
    | (none, t2) =>
      match setupStderr w (hist ++ t1 ++ t2) cmd with
      | (some err, t3) => (some err, t1 ++ t2 ++ t3)
      | (none, t3) => (none, t1 ++ t2 ++ t3)

/-- The map literal `modes` of `newSession`, as its entries in key order. -/
def modes : List (Nat × Nat) :=
  [(TTY_OP_ISPEED, 14400), (TTY_OP_OSPEED, 14400)]

/-- The method `SSHClient.newSession`. The result `none` stands for
`(session, nil)` and `some err` for `(nil, err)`. -/
def newSession (w : World) (hist : List Event) (client : SSHClient) :
    Option GoError × List Event :=
  let dial := Op.Dial "tcp" (Sprintf_addr client.Host client.Port) client.Config
  match w hist dial with
  | some err => (some (Errorf "Failed to dial: " err), [⟨dial, some err⟩])
  | none =>
    let h1 := hist ++ [⟨dial, none⟩]
    match w h1 Op.NewSession with
    | some err =>
      (some (Errorf "Failed to create session: " err), [⟨dial, none⟩, ⟨Op.NewSession, some err⟩])
    | none =>
      let h2 := h1 ++ [⟨Op.NewSession, none⟩]
      let pty := Op.RequestPty "xterm" 80 40 modes
      match w h2 pty with
      | some err =>
        let h3 := h2 ++ [⟨pty, some err⟩]
        (some (Errorf "request for pseudo terminal failed: " err),
          [⟨dial, none⟩, ⟨Op.NewSession, none⟩, ⟨pty, some err⟩, ⟨Op.Close, w h3 Op.Close⟩])
      | none => (none, [⟨dial, none⟩, ⟨Op.NewSession, none⟩, ⟨pty, none⟩])

/-- The method `SSHClient.RunCommand`. The deferred `session.Close()` runs last
on every return after the `defer` statement; its own result is dropped. -/
def RunCommand (w : World) (hist : List Event) (client : SSHClient) (cmd : SSHCommand) :
    Option GoError × List Event :=
  match newSession w hist client with
  | (some err, t1) => (some err, t1)
  | (none, t1) =>
    match prepareCommand w (hist ++ t1) cmd with
    | (some err, t2) =>
      (some err, t1 ++ t2 ++ [⟨Op.Close, w (hist ++ t1 ++ t2) Op.Close⟩])
    | (none, t2) =>
      let h2 := hist ++ t1 ++ t2
      let err := w h2 (Op.Run cmd.Path)
      let h3 := h2 ++ [⟨Op.Run cmd.Path, err⟩]
      (err, t1 ++ t2 ++ [⟨Op.Run cmd.Path, err⟩, ⟨Op.Close, w h3 Op.Close⟩])

/-- The function `RunSSHCommand`. The value `agentAuth` is what `SSHAgent()`
returned: an agent proof, or `none` when the agent socket cannot be reached. -/
def RunSSHCommand (w : World) (hist : List Event) (agentAuth : Option AuthMethod)
    (user host command : String) : Option GoError × List Event :=
  let sshConfig : ClientConfig := { User := user, Auth := [agentAuth] }
  let client : SSHClient := { Config := sshConfig, Host := host, Port := 22 }
  let cmd : SSHCommand :=
    { Path := command, Env := ["LC_DIR=/"], Stdin := some Stream.osStdin,
      Stdout := some Stream.osStdout, Stderr := some Stream.osStderr }
  match RunCommand w hist client cmd with
  | (some err, t) => (some err, t)
  | (none, t) => (none, t)

/-- A transport on which every operation succeeds. -/
def allOk : World := fun _ _ => none

/-- The kind of an operation, without its arguments. -/
inductive Step where
  | dial
  | newSession
  | requestPty
  | setenv
  | stdinPipe
  | stdoutPipe
  | stderrPipe
  | setStdout
  | goCopy
  | run
  | close
  deriving DecidableEq

/-- The kind of an operation. -/
def Op.step : Op → Step
  | Op.Dial _ _ _ => Step.dial
  | Op.NewSession => Step.newSession
  | Op.RequestPty _ _ _ _ => Step.requestPty
  | Op.Setenv _ _ => Step.setenv
  | Op.StdinPipe => Step.stdinPipe
  | Op.StdoutPipe => Step.stdoutPipe
  | Op.StderrPipe => Step.stderrPipe
  | Op.SetStdout _ => Step.setStdout
  | Op.GoCopy _ _ => Step.goCopy
  | Op.Run _ => Step.run
  | Op.Close => Step.close

/-- The `Setenv` requests of a run, as (name, value) pairs in order. -/
def setenvRequests (t : List Event) : List (String × String) :=
  t.filterMap fun ev =>
    match ev.op with
    | Op.Setenv name value => some (name, value)
    | _ => none

/-! ## Specification-side definitions -/

/-- Following the specification: the entry contains exactly one `=`. -/
def hasOneSeparator (entry : String) : Bool :=
  decide (entry.data.count '=' = 1)

/-- Following the specification: the text before the first `=` of an entry. -/
def textBefore (entry : String) : String :=
  String.mk (entry.data.takeWhile (fun c => c != '='))

/-- Following the specification: the text after the first `=` of an entry. -/
def textAfter (entry : String) : String :=
  String.mk ((entry.data.dropWhile (fun c => c != '=')).drop 1)

/-- Following the specification: the `Setenv` requests expected for an `env`
list, namely (text before the `=`, text after the `=`) of the entries with
exactly one `=`, in list order. -/
def expectedSetenvs (env : List String) : List (String × String) :=
  (env.filter hasOneSeparator).map fun entry => (textBefore entry, textAfter entry)

/-- A transport on which the operations of kind `s` fail with `e` and all others
succeed. -/
def failAt (s : Step) (e : GoError) : World :=
  fun _ op => if op.step = s then some e else none

/-- A command with the given `Env`, path `true` and no streams. -/
def envOnly (env : List String) : SSHCommand :=
  { Path := "true", Env := env, Stdin := none, Stdout := none, Stderr := none }

/-- The error the caller receives when an operation of kind `s` is the one that
fails with `e`: for five kinds a text naming the step followed by the message
of `e`, for `Setenv` and `Run` the error `e` itself. -/
def surfaced (s : Step) (e : GoError) : GoError :=
  match s with
  | Step.dial => Errorf "Failed to dial: " e
  | Step.newSession => Errorf "Failed to create session: " e
  | Step.requestPty => Errorf "request for pseudo terminal failed: " e
  | Step.stdinPipe => Errorf "Unable to setup stdin for session: " e
  | Step.stderrPipe => Errorf "Unable to setup stderr for session: " e
  | _ => e

/-- The kinds of the operations whose error `RunCommand` looks at. -/
def failableSteps : List Step :=
  [Step.dial, Step.newSession, Step.requestPty, Step.setenv, Step.stdinPipe,
    Step.stderrPipe, Step.run]

/-- The text put in front of the error of a failed operation of kind `s`; empty
for the kinds whose error is returned as it is. -/
def contextText (s : Step) : String :=
  match s with
  | Step.dial => "Failed to dial: "
  | Step.newSession => "Failed to create session: "
  | Step.requestPty => "request for pseudo terminal failed: "
  | Step.stdinPipe => "Unable to setup stdin for session: "
  | Step.stderrPipe => "Unable to setup stderr for session: "
  | _ => ""

/-- The number of `Close` events of a run. -/
def closeCount (t : List Event) : Nat :=
  t.countP fun ev => decide (ev.op = Op.Close)

/-- A pseudo-terminal request as the transport receives it: in
`RequestPty(term, h, w, modes)` the argument `h` is the number of rows and `w`
the number of columns. -/
structure PtyRequest where
  term : String
  rows : Nat
  columns : Nat
  modes : List (Nat × Nat)
  deriving DecidableEq

/-- The pseudo-terminal requests of a run, in order. -/
def ptyRequests (t : List Event) : List PtyRequest :=
  t.filterMap fun ev =>
    match ev.op with
    | Op.RequestPty term h w modes => some { term := term, rows := h, columns := w, modes := modes }
    | _ => none

/-- The events of a run whose operation has one of the given kinds. -/
def eventsOfKind (kinds : List Step) (t : List Event) : List Event :=
  t.filter fun ev => decide (ev.op.step ∈ kinds)

/-- A client for the host `example.test`, port 22, user `ci`, with no agent. -/
def sampleClient : SSHClient :=
  { Config := { User := "ci", Auth := [none] }, Host := "example.test", Port := 22 }

/-- A result `r` and a sequence of events `t` are fail-fast: either `r` is nil
and no event of `t` failed, or the last event of `t` is the only one that failed
and `r` is the error surfaced for it. -/
def FailFast (r : Option GoError) (t : List Event) : Prop :=
  match r with
  | none => ∀ ev ∈ t, ev.err = none
  | some x =>
    ∃ t0 op e, t = t0 ++ [⟨op, some e⟩] ∧ (∀ ev ∈ t0, ev.err = none) ∧
      op.step ∈ failableSteps ∧ x = surfaced op.step e

/-- The kinds of the operations `prepareCommand` performs. -/
def prepareSteps : List Step :=
  [Step.setenv, Step.stdinPipe, Step.stderrPipe, Step.goCopy]

/-- The kinds of the operations `newSession` performs. -/
def sessionSteps : List Step :=
  [Step.dial, Step.newSession, Step.requestPty, Step.close]

/-! ## Splitting -/

theorem splitChars_ne_nil (sep : Char) (s : List Char) : splitChars sep s ≠ [] := by
  induction s with
  | nil => simp [splitChars]
  | cons c cs ih =>
    unfold splitChars
    split
    · simp
    · split <;> simp

theorem length_splitChars (sep : Char) (s : List Char) :
    (splitChars sep s).length = s.count sep + 1 := by
  induction s with
  | nil => simp [splitChars]
  | cons c cs ih =>
    unfold splitChars
    by_cases h : c = sep
    · subst h
      simp [ih]
    · have hne : splitChars sep cs ≠ [] := splitChars_ne_nil sep cs
      rw [if_neg h]
      cases hs : splitChars sep cs with
      | nil => exact absurd hs hne
      | cons p ps =>
        rw [hs] at ih
        simp only [List.length_cons] at ih ⊢
        rw [List.count_cons_of_ne (Ne.symm h)]
        exact ih

theorem splitChars_of_not_mem (sep : Char) (s : List Char) (h : sep ∉ s) :
    splitChars sep s = [s] := by
  induction s with
  | nil => simp [splitChars]
  | cons c cs ih =>
    have hc : c ≠ sep := fun hc => h (by simp [hc])
    have hcs : sep ∉ cs := fun hm => h (List.mem_cons_of_mem _ hm)
    unfold splitChars
    rw [if_neg hc, ih hcs]

theorem splitChars_append_sep (sep : Char) (k v : List Char) (h : sep ∉ k) :
    splitChars sep (k ++ sep :: v) = k :: splitChars sep v := by
  induction k with
  | nil => simp [splitChars]
  | cons c cs ih =>
    have hc : c ≠ sep := fun hc => h (by simp [hc])
    have hcs : sep ∉ cs := fun hm => h (List.mem_cons_of_mem _ hm)
    have hstep : splitChars sep (c :: (cs ++ sep :: v)) =
        match splitChars sep (cs ++ sep :: v) with
        | [] => [[c]]
        | p :: ps => (c :: p) :: ps := by
      simp only [splitChars, if_neg hc]
    rw [List.cons_append, hstep, ih hcs]

theorem length_Split (s : String) (sep : Char) :
    (Split s sep).length = s.data.count sep + 1 := by
  simp [Split, length_splitChars]

theorem Split_key_value (key value : String) (hk : '=' ∉ key.data) (hv : '=' ∉ value.data) :
    Split (key ++ "=" ++ value) '=' = [key, value] := by
  have hd : (key ++ "=" ++ value).data = key.data ++ '=' :: value.data := by
    simp [String.data_append]
  unfold Split
  rw [hd, splitChars_append_sep _ _ _ hk, splitChars_of_not_mem _ _ hv]
  rfl

theorem splitChars_of_count_one (sep : Char) (s : List Char) (h : s.count sep = 1) :
    splitChars sep s =
      [s.takeWhile (fun c => c != sep), (s.dropWhile (fun c => c != sep)).drop 1] := by
  induction s with
  | nil => simp at h
  | cons c cs ih =>
    by_cases hc : c = sep
    · subst hc
      have h0 : cs.count c = 0 := by simpa using h
      have hmem : c ∉ cs := List.count_eq_zero.mp h0
      simp [splitChars, splitChars_of_not_mem _ _ hmem]
    · have h1 : cs.count sep = 1 := by
        rw [List.count_cons_of_ne (Ne.symm hc)] at h
        exact h
      have hstep : splitChars sep (c :: cs) =
          match splitChars sep cs with
          | [] => [[c]]
          | p :: ps => (c :: p) :: ps := by
        simp only [splitChars, if_neg hc]
      rw [hstep, ih h1]
      simp [hc]

/-! ## The environment loop -/

theorem setenvLoop_skip (w : World) (hist : List Event) (env : String) (rest : List String)
    (h : env.data.count '=' ≠ 1) :
    setenvLoop w hist (env :: rest) = setenvLoop w hist rest := by
  rw [setenvLoop]
  split
  · rename_i name value hs
    have hl := length_Split env '='
    rw [hs] at hl
    simp at hl
    omega
  · rfl

theorem setenvLoop_call (w : World) (hist : List Event) (env : String) (rest : List String)
    (name value : String) (h : Split env '=' = [name, value]) :
    setenvLoop w hist (env :: rest) =
      match w hist (Op.Setenv name value) with
      | some err => (some err, [⟨Op.Setenv name value, some err⟩])
      | none =>
        ((setenvLoop w (hist ++ [⟨Op.Setenv name value, none⟩]) rest).1,
          ⟨Op.Setenv name value, none⟩ ::
            (setenvLoop w (hist ++ [⟨Op.Setenv name value, none⟩]) rest).2) := by
  rw [setenvLoop, h]

theorem setenvLoop_append (w : World) (hist : List Event) (pre post : List String) :
    setenvLoop w hist (pre ++ post) =
      match setenvLoop w hist pre with
      | (some err, t) => (some err, t)
      | (none, t) =>
        ((setenvLoop w (hist ++ t) post).1, t ++ (setenvLoop w (hist ++ t) post).2) := by
  induction pre generalizing hist with
  | nil => simp [setenvLoop]
  | cons env rest ih =>
    by_cases h : env.data.count '=' = 1
    · have hl := length_Split env '='
      rw [h] at hl
      obtain ⟨name, value, hs⟩ : ∃ name value, Split env '=' = [name, value] := by
        match hsp : Split env '=' with
        | [] => rw [hsp] at hl; simp at hl
        | [_] => rw [hsp] at hl; simp at hl
        | [a, b] => exact ⟨a, b, rfl⟩
        | _ :: _ :: _ :: _ => rw [hsp] at hl; simp at hl
      rw [List.cons_append, setenvLoop_call w hist env _ name value hs,
        setenvLoop_call w hist env _ name value hs]
      cases hw : w hist (Op.Setenv name value) with
      | some err => rfl
      | none =>
        simp only [ih]
        cases hr : setenvLoop w (hist ++ [⟨Op.Setenv name value, none⟩]) rest with
        | mk r t =>
          cases r with
          | some err => rfl
          | none => simp [List.append_assoc]
    · rw [List.cons_append, setenvLoop_skip w hist env _ h, setenvLoop_skip w hist env _ h, ih]

theorem setenvLoop_drop_skipped (w : World) (hist : List Event) (pre post : List String)
    (entry : String) (h : entry.data.count '=' ≠ 1) :
    setenvLoop w hist (pre ++ entry :: post) = setenvLoop w hist (pre ++ post) := by
  rw [setenvLoop_append, setenvLoop_append]
  cases hr : setenvLoop w hist pre with
  | mk r t =>
    cases r with
    | some err => rfl
    | none => simp only [setenvLoop_skip _ _ _ _ h]

theorem setenvRequests_append (a b : List Event) :
    setenvRequests (a ++ b) = setenvRequests a ++ setenvRequests b := by
  simp [setenvRequests, List.filterMap_append]

theorem setenvRequests_setupStdin (w : World) (hist : List Event) (cmd : SSHCommand) :
    setenvRequests (setupStdin w hist cmd).2 = [] := by
  unfold setupStdin
  cases cmd.Stdin with
  | none => rfl
  | some src => cases w hist Op.StdinPipe <;> rfl

theorem setenvRequests_setupStderr (w : World) (hist : List Event) (cmd : SSHCommand) :
    setenvRequests (setupStderr w hist cmd).2 = [] := by
  unfold setupStderr
  cases cmd.Stderr with
  | none => rfl
  | some dst => cases w hist Op.StderrPipe <;> rfl

/-- The events of `prepareCommand` are those of the loop followed by events that
are no `Setenv` request. -/
theorem setenvRequests_prepareCommand (w : World) (hist : List Event) (cmd : SSHCommand) :
    setenvRequests (prepareCommand w hist cmd).2 =
      setenvRequests (setenvLoop w hist cmd.Env).2 := by
  unfold prepareCommand
  cases hl : setenvLoop w hist cmd.Env with
  | mk r t1 =>
    cases r with
    | some err => rfl
    | none =>
      have h2 := setenvRequests_setupStdin w (hist ++ t1) cmd
      have h3 := fun t2 => setenvRequests_setupStderr w (hist ++ t1 ++ t2) cmd
      dsimp only
      cases hi : setupStdin w (hist ++ t1) cmd with
      | mk r2 t2 =>
        rw [hi] at h2
        cases r2 with
        | some err => simp_all [setenvRequests_append]
        | none =>
          have h3 := h3 t2
          dsimp only
          cases he : setupStderr w (hist ++ t1 ++ t2) cmd with
          | mk r3 t3 =>
            rw [he] at h3
            cases r3 <;> simp_all [setenvRequests_append]

theorem setenvLoop_of_ok (w : World) (hist : List Event) (env : List String)
    (h : (setenvLoop w hist env).1 = none) :
    setenvLoop w hist env =
      (none, (expectedSetenvs env).map fun p => ⟨Op.Setenv p.1 p.2, none⟩) := by
  induction env generalizing hist with
  | nil => rfl
  | cons entry rest ih =>
    by_cases h1 : entry.data.count '=' = 1
    · have hs : Split entry '=' = [textBefore entry, textAfter entry] := by
        simp [Split, splitChars_of_count_one _ _ h1, textBefore, textAfter]
      rw [setenvLoop_call w hist entry rest _ _ hs] at h ⊢
      cases hw : w hist (Op.Setenv (textBefore entry) (textAfter entry)) with
      | some err =>
        rw [hw] at h
        simp at h
      | none =>
        rw [hw] at h
        simp only at h ⊢
        rw [ih _ h]
        simp [expectedSetenvs, hasOneSeparator, h1]
    · rw [setenvLoop_skip w hist entry rest h1] at h ⊢
      rw [ih _ h]
      simp [expectedSetenvs, hasOneSeparator, h1]

theorem setenvRequests_map_setenv (l : List (String × String)) :
    setenvRequests (l.map fun p => (⟨Op.Setenv p.1 p.2, none⟩ : Event)) = l := by
  induction l with
  | nil => rfl
  | cons p ps ih =>
    simp only [setenvRequests, List.map_cons, List.filterMap_cons] at ih ⊢
    rw [ih]

/-! ## Claims about the environment loop -/

/-- C1 (as stated, refuted): for the entry `A=b=c` no `Setenv` is requested at all,
where the claim expects `Setenv("A", "b=c")`; `prepareCommand` produces no event
and returns nil. -/
theorem prepareCommand_value_with_separator_skipped :
    prepareCommand allOk [] (envOnly ["A=b=c"]) = (none, []) := by
  decide

/-- C1 (amended): when `cmd.Env` is `pre`, then an entry `key=value` whose key and
value contain no `=`, then `post`, and the loop over `pre` did not fail, the
`Setenv` requests of `prepareCommand` are those for `pre`, then exactly one
request with name `key` and value `value`, then (if that request succeeded)
those for `post`. -/
theorem prepareCommand_setenv_key_value (w : World) (hist : List Event) (cmd : SSHCommand)
    (pre post : List String) (key value : String)
    (henv : cmd.Env = pre ++ (key ++ "=" ++ value) :: post)
    (hk : '=' ∉ key.data) (hv : '=' ∉ value.data)
    (hpre : (setenvLoop w hist pre).1 = none) :
    setenvRequests (prepareCommand w hist cmd).2 =
      setenvRequests (setenvLoop w hist pre).2 ++ (key, value) ::
        (match w (hist ++ (setenvLoop w hist pre).2) (Op.Setenv key value) with
         | some _ => []
         | none =>
           setenvRequests (setenvLoop w
             (hist ++ (setenvLoop w hist pre).2 ++ [⟨Op.Setenv key value, none⟩]) post).2) := by
  rw [setenvRequests_prepareCommand, henv, setenvLoop_append]
  cases hr : setenvLoop w hist pre with
  | mk r t =>
    rw [hr] at hpre
    simp only at hpre
    subst hpre
    simp only
    rw [setenvLoop_call w (hist ++ t) _ post key value (Split_key_value key value hk hv)]
    cases hw : w (hist ++ t) (Op.Setenv key value) with
    | some err => simp [setenvRequests_append, setenvRequests]
    | none => simp [setenvRequests_append, setenvRequests]

/-- The amended C1 on the list `X`, `LC_DIR=/`, `B=1` with a transport that accepts
everything: the requests are `LC_DIR` with value `/`, then `B` with value `1`. -/
theorem prepareCommand_setenv_key_value_witness :
    setenvRequests (prepareCommand allOk [] (envOnly ["X", "LC_DIR=/", "B=1"])).2 =
      [] ++ ("LC_DIR", "/") :: [("B", "1")] :=
  prepareCommand_setenv_key_value allOk [] (envOnly ["X", "LC_DIR=/", "B=1"])
    ["X"] ["B=1"] "LC_DIR" "/" (by decide) (by decide) (by decide) (by decide)

/-- C2 (as stated, refuted): entries with exactly one `=` and an empty key or an
empty value are not skipped. `=VALUE`, `KEY=` and `=` each lead to a `Setenv`
request, and when the transport rejects that request the call fails because of
the entry and the entries after it are not processed. -/
theorem prepareCommand_empty_part_not_skipped :
    prepareCommand allOk [] (envOnly ["=VALUE"]) = (none, [⟨Op.Setenv "" "VALUE", none⟩]) ∧
    prepareCommand allOk [] (envOnly ["KEY="]) = (none, [⟨Op.Setenv "KEY" "", none⟩]) ∧
    prepareCommand allOk [] (envOnly ["="]) = (none, [⟨Op.Setenv "" "", none⟩]) ∧
    prepareCommand (failAt Step.setenv "rejected") [] (envOnly ["=VALUE", "A=b"]) =
      (some "rejected", [⟨Op.Setenv "" "VALUE", some "rejected"⟩]) := by
  decide

/-- C2 (amended): an entry that does not contain exactly one `=` (none at all, or
two or more) has no effect: `prepareCommand` returns the same result and produces
the same events as for the list without that entry, so no `Setenv` is requested
for it, it causes no failure and the entries after it are processed. -/
theorem prepareCommand_skips_entry (w : World) (hist : List Event) (cmd : SSHCommand)
    (pre post : List String) (entry : String) (h : entry.data.count '=' ≠ 1) :
    prepareCommand w hist { cmd with Env := pre ++ entry :: post } =
      prepareCommand w hist { cmd with Env := pre ++ post } := by
  simp only [prepareCommand, setupStdin, setupStderr, setenvLoop_drop_skipped w hist pre post entry h]

/-- The amended C2 on the list `A=b`, `BADENTRY`, `C=d`: the entry without `=` changes
nothing. -/
theorem prepareCommand_skips_entry_witness :
    "BADENTRY".data.count '=' ≠ 1 ∧
    prepareCommand allOk [] { envOnly [] with Env := ["A=b"] ++ "BADENTRY" :: ["C=d"] } =
      prepareCommand allOk [] { envOnly [] with Env := ["A=b"] ++ ["C=d"] } :=
  ⟨by decide, prepareCommand_skips_entry allOk [] (envOnly []) ["A=b"] ["C=d"] "BADENTRY" (by decide)⟩

/-! ## Shape of the runs -/

theorem FailFast_append (r : Option GoError) (t1 t2 : List Event)
    (h1 : FailFast none t1) (h2 : FailFast r t2) : FailFast r (t1 ++ t2) := by
  cases r with
  | none =>
    intro ev hev
    rcases List.mem_append.mp hev with h | h
    · exact h1 ev h
    · exact h2 ev h
  | some x =>
    obtain ⟨t0, op, e, ht, h0, hx⟩ := h2
    refine ⟨t1 ++ t0, op, e, by rw [ht, List.append_assoc], ?_, hx⟩
    intro ev hev
    rcases List.mem_append.mp hev with h | h
    · exact h1 ev h
    · exact h0 ev h

theorem setenvLoop_failFast (w : World) (hist : List Event) (env : List String) :
    FailFast (setenvLoop w hist env).1 (setenvLoop w hist env).2 ∧
    ∀ ev ∈ (setenvLoop w hist env).2, ev.op.step = Step.setenv := by
  induction env generalizing hist with
  | nil => exact ⟨by simp [setenvLoop, FailFast], by simp [setenvLoop]⟩
  | cons entry rest ih =>
    rw [setenvLoop]
    split
    · rename_i name value hs
      cases hw : w hist (Op.Setenv name value) with
      | some err =>
        refine ⟨⟨[], Op.Setenv name value, err, rfl, by simp, by simp [Op.step, failableSteps], rfl⟩, ?_⟩
        intro ev hev
        simp only [List.mem_singleton] at hev
        rw [hev]
        rfl
      | none =>
        obtain ⟨hf, hk⟩ := ih (hist ++ [⟨Op.Setenv name value, none⟩])
        refine ⟨?_, ?_⟩
        · exact FailFast_append _ [⟨Op.Setenv name value, none⟩] _ (by simp [FailFast]) hf
        · intro ev hev
          rcases List.mem_cons.mp hev with h | h
          · rw [h]; rfl
          · exact hk ev h
    · exact ih hist

theorem setupStdin_failFast (w : World) (hist : List Event) (cmd : SSHCommand) :
    FailFast (setupStdin w hist cmd).1 (setupStdin w hist cmd).2 ∧
    ∀ ev ∈ (setupStdin w hist cmd).2, ev.op.step ∈ [Step.stdinPipe, Step.goCopy] := by
  unfold setupStdin
  cases cmd.Stdin with
  | none => simp [FailFast]
  | some src =>
    cases hw : w hist Op.StdinPipe with
    | some err =>
      refine ⟨⟨[], Op.StdinPipe, err, rfl, by simp, by decide, rfl⟩, ?_⟩
      simp [Op.step]
    | none => simp [FailFast, Op.step]

theorem setupStderr_failFast (w : World) (hist : List Event) (cmd : SSHCommand) :
    FailFast (setupStderr w hist cmd).1 (setupStderr w hist cmd).2 ∧
    ∀ ev ∈ (setupStderr w hist cmd).2, ev.op.step ∈ [Step.stderrPipe, Step.goCopy] := by
  unfold setupStderr
  cases cmd.Stderr with
  | none => simp [FailFast]
  | some dst =>
    cases hw : w hist Op.StderrPipe with
    | some err =>
      refine ⟨⟨[], Op.StderrPipe, err, rfl, by simp, by decide, rfl⟩, ?_⟩
      simp [Op.step]
    | none => simp [FailFast, Op.step]

/-- The three parts of `prepareCommand`: the loop, then the standard input, then
the standard error, each started only when the part before returned nil. -/
theorem prepareCommand_parts (w : World) (hist : List Event) (cmd : SSHCommand) :
    (∃ e t1, setenvLoop w hist cmd.Env = (some e, t1) ∧
      prepareCommand w hist cmd = (some e, t1)) ∨
    (∃ t1 r t2, setenvLoop w hist cmd.Env = (none, t1) ∧
      setupStdin w (hist ++ t1) cmd = (some r, t2) ∧
      prepareCommand w hist cmd = (some r, t1 ++ t2)) ∨
    (∃ t1 t2 r t3, setenvLoop w hist cmd.Env = (none, t1) ∧
      setupStdin w (hist ++ t1) cmd = (none, t2) ∧
      setupStderr w (hist ++ t1 ++ t2) cmd = (r, t3) ∧
      prepareCommand w hist cmd = (r, t1 ++ t2 ++ t3)) := by
  unfold prepareCommand
  cases hl : setenvLoop w hist cmd.Env with
  | mk r1 t1 =>
    cases r1 with
    | some e => exact Or.inl ⟨e, t1, rfl, rfl⟩
    | none =>
      dsimp only
      cases hi : setupStdin w (hist ++ t1) cmd with
      | mk r2 t2 =>
        cases r2 with
        | some e => exact Or.inr (Or.inl ⟨t1, e, t2, rfl, hi, rfl⟩)
        | none =>
          dsimp only
          cases he : setupStderr w (hist ++ t1 ++ t2) cmd with
          | mk r3 t3 =>
            refine Or.inr (Or.inr ⟨t1, t2, r3, t3, rfl, hi, he, ?_⟩)
            cases r3 <;> rfl

theorem prepareCommand_failFast (w : World) (hist : List Event) (cmd : SSHCommand) :
    FailFast (prepareCommand w hist cmd).1 (prepareCommand w hist cmd).2 ∧
    ∀ ev ∈ (prepareCommand w hist cmd).2, ev.op.step ∈ prepareSteps := by
  have hA := setenvLoop_failFast w hist cmd.Env
  rcases prepareCommand_parts w hist cmd with
    ⟨e, t1, h1, hp⟩ | ⟨t1, r, t2, h1, h2, hp⟩ | ⟨t1, t2, r, t3, h1, h2, h3, hp⟩
  · rw [h1] at hA
    rw [hp]
    refine ⟨hA.1, fun ev hev => ?_⟩
    rw [hA.2 ev hev]
    decide
  · have hB := setupStdin_failFast w (hist ++ t1) cmd
    rw [h1] at hA
    rw [h2] at hB
    rw [hp]
    refine ⟨FailFast_append _ _ _ hA.1 hB.1, fun ev hev => ?_⟩
    rcases List.mem_append.mp hev with h | h
    · rw [hA.2 ev h]; decide
    · have := hB.2 ev h
      simp only [List.mem_cons, List.mem_singleton, List.not_mem_nil, or_false] at this
      rcases this with h' | h' <;> rw [h'] <;> decide
  · have hB := setupStdin_failFast w (hist ++ t1) cmd
    have hC := setupStderr_failFast w (hist ++ t1 ++ t2) cmd
    rw [h1] at hA
    rw [h2] at hB
    rw [h3] at hC
    rw [hp]
    refine ⟨FailFast_append _ _ _ (FailFast_append _ _ _ hA.1 hB.1) hC.1, fun ev hev => ?_⟩
    rcases List.mem_append.mp hev with h | h
    · rcases List.mem_append.mp h with h | h
      · rw [hA.2 ev h]; decide
      · have := hB.2 ev h
        simp only [List.mem_cons, List.mem_singleton, List.not_mem_nil, or_false] at this
        rcases this with h' | h' <;> rw [h'] <;> decide
    · have := hC.2 ev h
      simp only [List.mem_cons, List.mem_singleton, List.not_mem_nil, or_false] at this
      rcases this with h' | h' <;> rw [h'] <;> decide

/-- The four ways `newSession` can go. -/
theorem newSession_cases (w : World) (hist : List Event) (client : SSHClient) :
    (∃ e, newSession w hist client =
      (some (Errorf "Failed to dial: " e),
        [⟨Op.Dial "tcp" (Sprintf_addr client.Host client.Port) client.Config, some e⟩])) ∨
    (∃ e, newSession w hist client =
      (some (Errorf "Failed to create session: " e),
        [⟨Op.Dial "tcp" (Sprintf_addr client.Host client.Port) client.Config, none⟩,
          ⟨Op.NewSession, some e⟩])) ∨
    (∃ e r, newSession w hist client =
      (some (Errorf "request for pseudo terminal failed: " e),
        [⟨Op.Dial "tcp" (Sprintf_addr client.Host client.Port) client.Config, none⟩,
          ⟨Op.NewSession, none⟩, ⟨Op.RequestPty "xterm" 80 40 modes, some e⟩,
          ⟨Op.Close, r⟩])) ∨
    newSession w hist client =
      (none,
        [⟨Op.Dial "tcp" (Sprintf_addr client.Host client.Port) client.Config, none⟩,
          ⟨Op.NewSession, none⟩, ⟨Op.RequestPty "xterm" 80 40 modes, none⟩]) := by
  unfold newSession
  dsimp only
  cases h1 : w hist (Op.Dial "tcp" (Sprintf_addr client.Host client.Port) client.Config) with
  | some e => exact Or.inl ⟨e, rfl⟩
  | none =>
    dsimp only
    cases h2 : w (hist ++ [⟨Op.Dial "tcp" (Sprintf_addr client.Host client.Port) client.Config,
        none⟩]) Op.NewSession with
    | some e => exact Or.inr (Or.inl ⟨e, rfl⟩)
    | none =>
      dsimp only
      cases h3 : w (hist ++ [⟨Op.Dial "tcp" (Sprintf_addr client.Host client.Port)
          client.Config, none⟩] ++ [⟨Op.NewSession, none⟩])
          (Op.RequestPty "xterm" 80 40 modes) with
      | some e => exact Or.inr (Or.inr (Or.inl ⟨e, _, rfl⟩))
      | none => exact Or.inr (Or.inr (Or.inr rfl))

/-- C3: in a run of `prepareCommand` in which every `Setenv` request succeeds,
the loop ends without an error and its events are exactly the successful
requests `Setenv (text before the =) (text after the =)` of the entries that
contain exactly one `=`, in list order; these are all the `Setenv` requests of
`prepareCommand`. Entries with no `=` or with two or more produce nothing. -/
theorem prepareCommand_setenv_iff_one_separator (w : World) (hist : List Event)
    (cmd : SSHCommand)
    (hok : ∀ ev ∈ (prepareCommand w hist cmd).2, ev.op.step = Step.setenv → ev.err = none) :
    setenvLoop w hist cmd.Env =
      (none, (expectedSetenvs cmd.Env).map fun p => ⟨Op.Setenv p.1 p.2, none⟩) ∧
    setenvRequests (prepareCommand w hist cmd).2 = expectedSetenvs cmd.Env := by
  have hloop : (setenvLoop w hist cmd.Env).1 = none := by
    have hA := setenvLoop_failFast w hist cmd.Env
    cases hl : setenvLoop w hist cmd.Env with
    | mk r t1 =>
      cases r with
      | none => rfl
      | some x =>
        exfalso
        have hp : prepareCommand w hist cmd = (some x, t1) := by
          unfold prepareCommand
          rw [hl]
        rw [hl] at hA
        obtain ⟨⟨t0, op, e0, ht, -, -, -⟩, hk⟩ := hA
        simp only at ht hk
        rw [hp] at hok
        have hmem : (⟨op, some e0⟩ : Event) ∈ t1 := by rw [ht]; simp
        have := hok _ hmem (hk _ hmem)
        simp at this
  have heq := setenvLoop_of_ok w hist cmd.Env hloop
  refine ⟨heq, ?_⟩
  rw [setenvRequests_prepareCommand, heq]
  exact setenvRequests_map_setenv _

/-- C3 on a list with entries of zero, one and two `=`: only the three entries with
one `=` are requested, in order. -/
theorem prepareCommand_setenv_iff_one_separator_witness :
    setenvLoop allOk [] (envOnly ["A=b", "NOSEP", "A=b=c", "=", "K=v"]).Env =
      (none, [⟨Op.Setenv "A" "b", none⟩, ⟨Op.Setenv "" "", none⟩, ⟨Op.Setenv "K" "v", none⟩]) ∧
    setenvRequests (prepareCommand allOk [] (envOnly ["A=b", "NOSEP", "A=b=c", "=", "K=v"])).2 =
      [("A", "b"), ("", ""), ("K", "v")] :=
  prepareCommand_setenv_iff_one_separator allOk []
    (envOnly ["A=b", "NOSEP", "A=b=c", "=", "K=v"]) (by decide)

/-- The three ways `RunCommand` can go. -/
theorem RunCommand_cases (w : World) (hist : List Event) (client : SSHClient)
    (cmd : SSHCommand) :
    (∃ e t1, newSession w hist client = (some e, t1) ∧
      RunCommand w hist client cmd = (some e, t1)) ∨
    (∃ t1 e t2, newSession w hist client = (none, t1) ∧
      prepareCommand w (hist ++ t1) cmd = (some e, t2) ∧
      RunCommand w hist client cmd =
        (some e, t1 ++ t2 ++ [⟨Op.Close, w (hist ++ t1 ++ t2) Op.Close⟩])) ∨
    (∃ t1 t2, newSession w hist client = (none, t1) ∧
      prepareCommand w (hist ++ t1) cmd = (none, t2) ∧
      RunCommand w hist client cmd =
        (w (hist ++ t1 ++ t2) (Op.Run cmd.Path),
          t1 ++ t2 ++ [⟨Op.Run cmd.Path, w (hist ++ t1 ++ t2) (Op.Run cmd.Path)⟩,
            ⟨Op.Close, w (hist ++ t1 ++ t2 ++
              [⟨Op.Run cmd.Path, w (hist ++ t1 ++ t2) (Op.Run cmd.Path)⟩]) Op.Close⟩])) := by
  unfold RunCommand
  cases hn : newSession w hist client with
  | mk r1 t1 =>
    cases r1 with
    | some e => exact Or.inl ⟨e, t1, rfl, rfl⟩
    | none =>
      dsimp only
      cases hp : prepareCommand w (hist ++ t1) cmd with
      | mk r2 t2 =>
        cases r2 with
        | some e => exact Or.inr (Or.inl ⟨t1, e, t2, rfl, hp, rfl⟩)
        | none => exact Or.inr (Or.inr ⟨t1, t2, rfl, hp, rfl⟩)

theorem newSession_ok_events (w : World) (hist : List Event) (client : SSHClient)
    (t1 : List Event) (h : newSession w hist client = (none, t1)) :
    t1 = [⟨Op.Dial "tcp" (Sprintf_addr client.Host client.Port) client.Config, none⟩,
      ⟨Op.NewSession, none⟩, ⟨Op.RequestPty "xterm" 80 40 modes, none⟩] := by
  rcases newSession_cases w hist client with ⟨e, h1⟩ | ⟨e, h1⟩ | ⟨e, r, h1⟩ | h1 <;>
    rw [h1] at h <;> simp at h
  exact h.symm

theorem closeCount_append (a b : List Event) :
    closeCount (a ++ b) = closeCount a + closeCount b := by
  simp [closeCount, List.countP_append]

theorem closeCount_prepareCommand (w : World) (hist : List Event) (cmd : SSHCommand) :
    closeCount (prepareCommand w hist cmd).2 = 0 := by
  unfold closeCount
  rw [List.countP_eq_zero]
  intro ev hev
  have hk := (prepareCommand_failFast w hist cmd).2 ev hev
  intro hc
  have hop : ev.op = Op.Close := by simpa using hc
  rw [hop] at hk
  revert hk
  decide

theorem eventsOfKind_append (kinds : List Step) (a b : List Event) :
    eventsOfKind kinds (a ++ b) = eventsOfKind kinds a ++ eventsOfKind kinds b := by
  simp [eventsOfKind, List.filter_append]

theorem eventsOfKind_eq_nil (kinds : List Step) (t : List Event)
    (h : ∀ ev ∈ t, ev.op.step ∉ kinds) : eventsOfKind kinds t = [] := by
  unfold eventsOfKind
  rw [List.filter_eq_nil_iff]
  intro ev hev
  simpa using h ev hev

theorem getLast?_append_close (t : List Event) (r : Option GoError) :
    (t ++ [(⟨Op.Close, r⟩ : Event)]).getLast?.map Event.op = some Op.Close := by
  simp

/-! ## Claims about the session -/

/-- C4: in every run of `RunCommand`, if `NewSession` succeeded then the run has
exactly one `Close` event and it is the last event of the run (whether the pty
request failed, `prepareCommand` failed, `Run` failed or `Run` succeeded); if no
session was created (the dial or `NewSession` failed) there is no `Close` event. -/
theorem RunCommand_closes_session_once (w : World) (hist : List Event) (client : SSHClient)
    (cmd : SSHCommand) :
    closeCount (RunCommand w hist client cmd).2 =
      (if (⟨Op.NewSession, none⟩ : Event) ∈ (RunCommand w hist client cmd).2 then 1 else 0) ∧
    ((⟨Op.NewSession, none⟩ : Event) ∈ (RunCommand w hist client cmd).2 ↔
      (RunCommand w hist client cmd).2.getLast?.map Event.op = some Op.Close) := by
  rcases RunCommand_cases w hist client cmd with
    ⟨e, t1, hn, hr⟩ | ⟨t1, e, t2, hn, hp, hr⟩ | ⟨t1, t2, hn, hp, hr⟩
  · rw [hr]
    rcases newSession_cases w hist client with ⟨e1, h1⟩ | ⟨e1, h1⟩ | ⟨e1, r, h1⟩ | h1 <;>
      rw [h1] at hn <;> simp only [Prod.mk.injEq, reduceCtorEq, false_and] at hn <;>
      obtain ⟨-, rfl⟩ := hn <;> simp [closeCount]
  · have ht1 := newSession_ok_events w hist client t1 hn
    have hc := closeCount_prepareCommand w (hist ++ t1) cmd
    rw [hp] at hc
    have hmem : (⟨Op.NewSession, none⟩ : Event) ∈ t1 ++ t2 ++
        [⟨Op.Close, w (hist ++ t1 ++ t2) Op.Close⟩] := by
      rw [ht1]; simp
    rw [hr]
    refine ⟨?_, ?_⟩
    · rw [if_pos hmem, closeCount_append, closeCount_append, hc, ht1]
      simp [closeCount]
    · exact ⟨fun _ => getLast?_append_close _ _, fun _ => hmem⟩
  · have ht1 := newSession_ok_events w hist client t1 hn
    have hc := closeCount_prepareCommand w (hist ++ t1) cmd
    rw [hp] at hc
    have hmem : (⟨Op.NewSession, none⟩ : Event) ∈ t1 ++ t2 ++
        [⟨Op.Run cmd.Path, w (hist ++ t1 ++ t2) (Op.Run cmd.Path)⟩,
          ⟨Op.Close, w (hist ++ t1 ++ t2 ++
            [⟨Op.Run cmd.Path, w (hist ++ t1 ++ t2) (Op.Run cmd.Path)⟩]) Op.Close⟩] := by
      rw [ht1]; simp
    rw [hr]
    refine ⟨?_, ?_⟩
    · rw [if_pos hmem, closeCount_append, closeCount_append, hc, ht1]
      simp [closeCount]
    · refine ⟨fun _ => ?_, fun _ => hmem⟩
      simp

/-- C5 (what the code does): whenever `newSession` creates a session channel, its
one pseudo-terminal request has terminal type `xterm`, 80 rows, 40 columns (the
call is `RequestPty("xterm", 80, 40, modes)` and the parameters are
`(term, h, w, modes)`), and modes that set the input and the output speed to
14400; without a session channel nothing is requested. The claim expects 80
columns and 40 rows. -/
theorem newSession_pty_request (w : World) (hist : List Event) (client : SSHClient) :
    ptyRequests (newSession w hist client).2 =
      (if (⟨Op.NewSession, none⟩ : Event) ∈ (newSession w hist client).2 then
        [{ term := "xterm", rows := 80, columns := 40,
           modes := [(TTY_OP_ISPEED, 14400), (TTY_OP_OSPEED, 14400)] }]
      else []) := by
  rcases newSession_cases w hist client with ⟨e1, h1⟩ | ⟨e1, h1⟩ | ⟨e1, r, h1⟩ | h1 <;>
    rw [h1] <;> simp [ptyRequests, modes]

/-- C7: if the dial fails, `RunCommand` returns the dial error (with its context
text) and the failed dial is the only event of the run: no second dial and no
`NewSession`, `RequestPty`, `Setenv`, `StdinPipe`, `StderrPipe`, `Run` or `Close`. -/
theorem RunCommand_dial_failure (w : World) (hist : List Event) (client : SSHClient)
    (cmd : SSHCommand) (e : GoError)
    (h : w hist (Op.Dial "tcp" (Sprintf_addr client.Host client.Port) client.Config) = some e) :
    RunCommand w hist client cmd =
      (some (Errorf "Failed to dial: " e),
        [⟨Op.Dial "tcp" (Sprintf_addr client.Host client.Port) client.Config, some e⟩]) := by
  have hn : newSession w hist client =
      (some (Errorf "Failed to dial: " e),
        [⟨Op.Dial "tcp" (Sprintf_addr client.Host client.Port) client.Config, some e⟩]) := by
    unfold newSession
    simp only [h]
  unfold RunCommand
  rw [hn]

/-- C7 on a transport whose dial fails: one event, the failed dial. -/
theorem RunCommand_dial_failure_witness :
    failAt Step.dial "ssh: unable to authenticate" []
      (Op.Dial "tcp" (Sprintf_addr sampleClient.Host sampleClient.Port) sampleClient.Config) =
      some "ssh: unable to authenticate" ∧
    RunCommand (failAt Step.dial "ssh: unable to authenticate") [] sampleClient
      (envOnly ["A=b"]) =
      (some (Errorf "Failed to dial: " "ssh: unable to authenticate"),
        [⟨Op.Dial "tcp" (Sprintf_addr sampleClient.Host sampleClient.Port) sampleClient.Config,
          some "ssh: unable to authenticate"⟩]) :=
  ⟨by decide, RunCommand_dial_failure _ [] sampleClient (envOnly ["A=b"]) _ (by decide)⟩

/-! ## Claims about failures -/

theorem setenvLoop_filter (w : World) (hist : List Event) (env : List String) :
    setenvLoop w hist env = setenvLoop w hist (env.filter hasOneSeparator) := by
  induction env generalizing hist with
  | nil => rfl
  | cons entry rest ih =>
    by_cases h : entry.data.count '=' = 1
    · have hf : (entry :: rest).filter hasOneSeparator =
          entry :: rest.filter hasOneSeparator := by
        simp [hasOneSeparator, h]
      rw [hf, setenvLoop, setenvLoop]
      split
      · split
        · rfl
        · simp only [ih]
      · exact ih hist
    · have hf : (entry :: rest).filter hasOneSeparator = rest.filter hasOneSeparator := by
        simp [hasOneSeparator, h]
      rw [hf, setenvLoop_skip w hist entry rest h, ih]

theorem prepareCommand_failed_setenv (w : World) (hist : List Event) (cmd : SSHCommand)
    (n v : String) (e : GoError)
    (h : (⟨Op.Setenv n v, some e⟩ : Event) ∈ (prepareCommand w hist cmd).2) :
    ∃ t2, prepareCommand w hist cmd = (some e, t2 ++ [⟨Op.Setenv n v, some e⟩]) ∧
      ∀ ev ∈ t2, ev.op.step = Step.setenv ∧ ev.err = none := by
  have hA := setenvLoop_failFast w hist cmd.Env
  rcases prepareCommand_parts w hist cmd with
    ⟨e1, t1, h1, hp⟩ | ⟨t1, r, t2, h1, h2, hp⟩ | ⟨t1, t2, r, t3, h1, h2, h3, hp⟩
  · rw [h1] at hA
    rw [hp] at h ⊢
    obtain ⟨⟨t0, op, e0, ht, h0, -, hx⟩, hk⟩ := hA
    simp only at ht h
    subst ht
    have hop : op.step = Step.setenv := hk ⟨op, some e0⟩ (by simp)
    have hlast : (⟨Op.Setenv n v, some e⟩ : Event) = ⟨op, some e0⟩ := by
      rcases List.mem_append.mp h with hm | hm
      · have := h0 _ hm
        simp at this
      · simpa using hm
    have hx2 : e1 = e0 := by rw [hx, hop]; rfl
    obtain ⟨hop2, he2⟩ : Op.Setenv n v = op ∧ e = e0 := by simpa using hlast
    subst hop2
    subst he2
    rw [hx2]
    exact ⟨t0, rfl, fun ev hev => ⟨hk ev (List.mem_append_left _ hev), h0 ev hev⟩⟩
  · exfalso
    have hB := setupStdin_failFast w (hist ++ t1) cmd
    rw [h1] at hA
    rw [h2] at hB
    rw [hp] at h
    rcases List.mem_append.mp h with hm | hm
    · have := hA.1 _ hm
      simp at this
    · have := hB.2 _ hm
      simp [Op.step] at this
  · exfalso
    have hB := setupStdin_failFast w (hist ++ t1) cmd
    have hC := setupStderr_failFast w (hist ++ t1 ++ t2) cmd
    rw [h1] at hA
    rw [h2] at hB
    rw [h3] at hC
    rw [hp] at h
    rcases List.mem_append.mp h with hm | hm
    · rcases List.mem_append.mp hm with hm | hm
      · have := hA.1 _ hm
        simp at this
      · have := hB.2 _ hm
        simp [Op.step] at this
    · have := hC.2 _ hm
      simp [Op.step] at this

theorem newSession_steps (w : World) (hist : List Event) (client : SSHClient) :
    ∀ ev ∈ (newSession w hist client).2, ev.op.step ∈ sessionSteps := by
  rcases newSession_cases w hist client with ⟨e1, h1⟩ | ⟨e1, h1⟩ | ⟨e1, r, h1⟩ | h1 <;>
    rw [h1] <;> simp [Op.step, sessionSteps]

theorem setenvLoop_all_skipped (w : World) (hist : List Event) (env : List String) :
    setenvLoop w hist (env.filter fun entry => !hasOneSeparator entry) = (none, []) := by
  induction env with
  | nil => rfl
  | cons entry rest ih =>
    by_cases h : entry.data.count '=' = 1
    · have hf : ((entry :: rest).filter fun entry => !hasOneSeparator entry) =
          rest.filter fun entry => !hasOneSeparator entry := by
        simp [hasOneSeparator, h]
      rw [hf, ih]
    · have hf : ((entry :: rest).filter fun entry => !hasOneSeparator entry) =
          entry :: rest.filter fun entry => !hasOneSeparator entry := by
        simp [hasOneSeparator, h]
      rw [hf, setenvLoop_skip w hist entry _ h, ih]

theorem prepareCommand_filter (w : World) (hist : List Event) (cmd : SSHCommand) :
    prepareCommand w hist { cmd with Env := cmd.Env.filter hasOneSeparator } =
      prepareCommand w hist cmd := by
  simp only [prepareCommand, setupStdin, setupStderr, ← setenvLoop_filter]

theorem RunCommand_filter (w : World) (hist : List Event) (client : SSHClient)
    (cmd : SSHCommand) :
    RunCommand w hist client { cmd with Env := cmd.Env.filter hasOneSeparator } =
      RunCommand w hist client cmd := by
  simp only [RunCommand, prepareCommand_filter]

theorem prepareCommand_error_origin (w : World) (hist : List Event) (cmd : SSHCommand) :
    (prepareCommand w hist cmd).1 = none ∨
      ∃ t0 op e0, (prepareCommand w hist cmd).2 = t0 ++ [⟨op, some e0⟩] ∧
        op.step ∈ [Step.setenv, Step.stdinPipe, Step.stderrPipe] ∧
        (prepareCommand w hist cmd).1 = some (surfaced op.step e0) := by
  obtain ⟨hf, hk⟩ := prepareCommand_failFast w hist cmd
  cases hr : (prepareCommand w hist cmd).1 with
  | none => exact Or.inl rfl
  | some x =>
    rw [hr] at hf
    obtain ⟨t0, op, e0, ht, -, hfs, hx⟩ := hf
    refine Or.inr ⟨t0, op, e0, ht, ?_, by rw [hx]⟩
    have hmem : (⟨op, some e0⟩ : Event) ∈ (prepareCommand w hist cmd).2 := by
      rw [ht]; simp
    have hp := hk _ hmem
    revert hfs hp
    simp only
    generalize op.step = s
    cases s <;> decide

theorem RunCommand_failed_setenv (w : World) (hist : List Event)
    (client : SSHClient) (cmd : SSHCommand) (n v : String) (e : GoError)
    (h : (⟨Op.Setenv n v, some e⟩ : Event) ∈ (RunCommand w hist client cmd).2) :
    ∃ t1 t2 r, newSession w hist client = (none, t1) ∧
      prepareCommand w (hist ++ t1) cmd = (some e, t2 ++ [⟨Op.Setenv n v, some e⟩]) ∧
      (∀ ev ∈ t2, ev.op.step = Step.setenv ∧ ev.err = none) ∧
      RunCommand w hist client cmd =
        (some e, t1 ++ (t2 ++ [⟨Op.Setenv n v, some e⟩]) ++ [⟨Op.Close, r⟩]) := by
  rcases RunCommand_cases w hist client cmd with
    ⟨e1, t1, hn, hr⟩ | ⟨t1, e1, t2, hn, hp, hr⟩ | ⟨t1, t2, hn, hp, hr⟩
  · exfalso
    rw [hr] at h
    have hs := newSession_steps w hist client
    rw [hn] at hs
    have := hs _ h
    simp [Op.step, sessionSteps] at this
  · have hs := newSession_steps w hist client
    rw [hn] at hs
    rw [hr] at h
    have hin : (⟨Op.Setenv n v, some e⟩ : Event) ∈ (prepareCommand w (hist ++ t1) cmd).2 := by
      rw [hp]
      rcases List.mem_append.mp h with hm | hm
      · rcases List.mem_append.mp hm with hm | hm
        · have := hs _ hm
          simp [Op.step, sessionSteps] at this
        · exact hm
      · simp at hm
    obtain ⟨t0, hp0, hk⟩ := prepareCommand_failed_setenv w (hist ++ t1) cmd n v e hin
    rw [hp] at hp0
    simp only [Prod.mk.injEq, Option.some.injEq] at hp0
    obtain ⟨he, ht⟩ := hp0
    subst he
    subst ht
    exact ⟨t1, t0, _, hn, hp, hk, hr⟩
  · exfalso
    have hs := newSession_steps w hist client
    rw [hn] at hs
    have hf := (prepareCommand_failFast w (hist ++ t1) cmd).1
    rw [hp] at hf
    rw [hr] at h
    rcases List.mem_append.mp h with hm | hm
    · rcases List.mem_append.mp hm with hm | hm
      · have := hs _ hm
        simp [Op.step, sessionSteps] at this
      · have := hf _ hm
        simp at this
    · simp at hm

/-- C6: if a `Setenv` request fails with `e` during `RunCommand`, then
`prepareCommand` returned `e` with that request as its last event, preceded only
by successful `Setenv` requests; `RunCommand` returns `e`, the only event after
the failed request is the `Close` of the session, and the run contains no
`StdinPipe`, `StderrPipe` or `Run` event. Entries that are skipped never cause
an error, whatever the transport and the history: the skipped entries of the
list on their own make the loop return nil with no event, and `prepareCommand`
and `RunCommand` return the same result with the same events as for the list
without the skipped entries. -/
theorem RunCommand_setenv_failure_aborts (w : World) (hist : List Event)
    (client : SSHClient) (cmd : SSHCommand) :
    (∀ (n v : String) (e : GoError),
      (⟨Op.Setenv n v, some e⟩ : Event) ∈ (RunCommand w hist client cmd).2 →
      (∃ t1 t2 r, newSession w hist client = (none, t1) ∧
        prepareCommand w (hist ++ t1) cmd = (some e, t2 ++ [⟨Op.Setenv n v, some e⟩]) ∧
        t2.all (fun ev => decide (ev.op.step = Step.setenv ∧ ev.err = none)) = true ∧
        RunCommand w hist client cmd =
          (some e, t1 ++ (t2 ++ [⟨Op.Setenv n v, some e⟩]) ++ [⟨Op.Close, r⟩])) ∧
      eventsOfKind [Step.stdinPipe, Step.stderrPipe, Step.run]
        (RunCommand w hist client cmd).2 = []) ∧
    (∀ before : List Event,
      setenvLoop w before (cmd.Env.filter fun entry => !hasOneSeparator entry) = (none, []) ∧
      prepareCommand w before cmd =
        prepareCommand w before { cmd with Env := cmd.Env.filter hasOneSeparator } ∧
      ((prepareCommand w before cmd).1 = none ∨
        ∃ t0 op e0, (prepareCommand w before cmd).2 = t0 ++ [⟨op, some e0⟩] ∧
          op.step ∈ [Step.setenv, Step.stdinPipe, Step.stderrPipe] ∧
          (prepareCommand w before cmd).1 = some (surfaced op.step e0))) ∧
    RunCommand w hist client cmd =
      RunCommand w hist client { cmd with Env := cmd.Env.filter hasOneSeparator } := by
  refine ⟨?_, fun before =>
    ⟨setenvLoop_all_skipped w before cmd.Env, (prepareCommand_filter w before cmd).symm,
      prepareCommand_error_origin w before cmd⟩,
    (RunCommand_filter w hist client cmd).symm⟩
  intro n v e h
  obtain ⟨t1, t2, r, hn, hp, hk, hr⟩ := RunCommand_failed_setenv w hist client cmd n v e h
  refine ⟨⟨t1, t2, r, hn, hp, ?_, hr⟩, ?_⟩
  · rw [List.all_eq_true]
    intro ev hev
    simpa using hk ev hev
  · rw [hr]
    apply eventsOfKind_eq_nil
    intro ev hev
    have ht1 := newSession_ok_events w hist client t1 hn
    rcases List.mem_append.mp hev with hm | hm
    · rcases List.mem_append.mp hm with hm | hm
      · rw [ht1] at hm
        simp only [List.mem_cons, List.mem_singleton, List.not_mem_nil, or_false] at hm
        rcases hm with rfl | rfl | rfl <;> simp [Op.step]
      · rcases List.mem_append.mp hm with hm | hm
        · rw [(hk ev hm).1]; decide
        · simp only [List.mem_singleton] at hm
          rw [hm]; simp [Op.step]
    · simp only [List.mem_singleton] at hm
      rw [hm]; simp [Op.step]

/-- C6 on a transport that rejects `Setenv`, for a command with both streams set: no
pipe is opened and nothing is run; and on the list with the one entry `BADENTRY`
the same transport causes no error and no event. -/
theorem RunCommand_setenv_failure_aborts_witness :
    (⟨Op.Setenv "A" "b", some "rejected"⟩ : Event) ∈
      (RunCommand (failAt Step.setenv "rejected") [] sampleClient
        { envOnly ["NOSEP", "A=b", "C=d"] with
          Stdin := some Stream.osStdin, Stderr := some Stream.osStderr }).2 ∧
    eventsOfKind [Step.stdinPipe, Step.stderrPipe, Step.run]
      (RunCommand (failAt Step.setenv "rejected") [] sampleClient
        { envOnly ["NOSEP", "A=b", "C=d"] with
          Stdin := some Stream.osStdin, Stderr := some Stream.osStderr }).2 = [] ∧
    prepareCommand (failAt Step.setenv "rejected") [] (envOnly ["BADENTRY"]) = (none, []) :=
  ⟨by decide,
    ((RunCommand_setenv_failure_aborts (failAt Step.setenv "rejected") [] sampleClient
      { envOnly ["NOSEP", "A=b", "C=d"] with
        Stdin := some Stream.osStdin, Stderr := some Stream.osStderr }).1
      "A" "b" "rejected" (by decide)).2,
    ((RunCommand_setenv_failure_aborts (failAt Step.setenv "rejected") [] sampleClient
      (envOnly ["BADENTRY"])).2.1 []).2.1⟩

theorem surfaced_eq_contextText (s : Step) (e : GoError) :
    surfaced s e = contextText s ++ e := by
  cases s <;> simp [surfaced, contextText, Errorf]

theorem append_ne_of_ne (p q e : String) (h : p ≠ q) : p ++ e ≠ q ++ e := by
  intro heq
  apply h
  have hd : (p ++ e).data = (q ++ e).data := by rw [heq]
  rw [String.data_append, String.data_append] at hd
  exact String.ext (List.append_cancel_right hd)

theorem RunCommand_failed_event (w : World) (hist : List Event) (client : SSHClient)
    (cmd : SSHCommand) (ev : Event) (e : GoError)
    (hev : ev ∈ (RunCommand w hist client cmd).2) (he : ev.err = some e)
    (hc : ev.op.step ≠ Step.close) :
    (RunCommand w hist client cmd).1 = some (surfaced ev.op.step e) ∧
      ev.op.step ∈ failableSteps := by
  rcases RunCommand_cases w hist client cmd with
    ⟨e1, t1, hn, hr⟩ | ⟨t1, e1, t2, hn, hp, hr⟩ | ⟨t1, t2, hn, hp, hr⟩
  · rw [hr] at hev ⊢
    rcases newSession_cases w hist client with ⟨e2, h1⟩ | ⟨e2, h1⟩ | ⟨e2, r, h1⟩ | h1 <;>
      rw [h1] at hn <;> simp only [Prod.mk.injEq, reduceCtorEq, false_and] at hn
    · obtain ⟨hx, rfl⟩ := hn
      simp only [List.mem_singleton] at hev
      subst hev
      simp only [Option.some.injEq] at he hx
      subst he
      exact ⟨by rw [← hx]; rfl, by simp [Op.step, failableSteps]⟩
    · obtain ⟨hx, rfl⟩ := hn
      simp only [List.mem_cons, List.mem_singleton, List.not_mem_nil, or_false] at hev
      rcases hev with rfl | rfl
      · simp at he
      · simp only [Option.some.injEq] at he hx
        subst he
        exact ⟨by rw [← hx]; rfl, by simp [Op.step, failableSteps]⟩
    · obtain ⟨hx, rfl⟩ := hn
      simp only [List.mem_cons, List.mem_singleton, List.not_mem_nil, or_false] at hev
      rcases hev with rfl | rfl | rfl | rfl
      · simp at he
      · simp at he
      · simp only [Option.some.injEq] at he hx
        subst he
        exact ⟨by rw [← hx]; rfl, by simp [Op.step, failableSteps]⟩
      · exact absurd rfl hc
  · have ht1 := newSession_ok_events w hist client t1 hn
    have hf := (prepareCommand_failFast w (hist ++ t1) cmd).1
    rw [hp] at hf
    obtain ⟨t0, op, e0, ht, h0, hfs, hx⟩ := hf
    rw [hr] at hev ⊢
    rcases List.mem_append.mp hev with hm | hm
    · rcases List.mem_append.mp hm with hm | hm
      · rw [ht1] at hm
        simp only [List.mem_cons, List.mem_singleton, List.not_mem_nil, or_false] at hm
        rcases hm with rfl | rfl | rfl <;> simp at he
      · simp only at ht
        rw [ht] at hm
        rcases List.mem_append.mp hm with hm | hm
        · rw [h0 ev hm] at he
          simp at he
        · simp only [List.mem_singleton] at hm
          subst hm
          simp only [Option.some.injEq] at he
          subst he
          exact ⟨by rw [hx], hfs⟩
    · simp only [List.mem_singleton] at hm
      subst hm
      exact absurd rfl hc
  · have ht1 := newSession_ok_events w hist client t1 hn
    have hf := (prepareCommand_failFast w (hist ++ t1) cmd).1
    rw [hp] at hf
    rw [hr] at hev ⊢
    rcases List.mem_append.mp hev with hm | hm
    · rcases List.mem_append.mp hm with hm | hm
      · rw [ht1] at hm
        simp only [List.mem_cons, List.mem_singleton, List.not_mem_nil, or_false] at hm
        rcases hm with rfl | rfl | rfl <;> simp at he
      · rw [hf ev hm] at he
        simp at he
    · simp only [List.mem_cons, List.mem_singleton, List.not_mem_nil, or_false] at hm
      rcases hm with rfl | rfl
      · simp only at he
        exact ⟨by rw [he]; rfl, by simp [Op.step, failableSteps]⟩
      · exact absurd rfl hc

/-- C8 (as stated, refuted): a run in which `Setenv` fails with the error `boom`
and a run in which `session.Run` fails with the same error return the same
error `boom`, with no text telling the two steps apart. -/
theorem RunCommand_setenv_and_run_errors_coincide :
    RunCommand (failAt Step.setenv "boom") [] sampleClient (envOnly ["A=b"]) =
      (some "boom",
        [⟨Op.Dial "tcp" "example.test:22" sampleClient.Config, none⟩, ⟨Op.NewSession, none⟩,
          ⟨Op.RequestPty "xterm" 80 40 modes, none⟩, ⟨Op.Setenv "A" "b", some "boom"⟩,
          ⟨Op.Close, none⟩]) ∧
    RunCommand (failAt Step.run "boom") [] sampleClient (envOnly ["A=b"]) =
      (some "boom",
        [⟨Op.Dial "tcp" "example.test:22" sampleClient.Config, none⟩, ⟨Op.NewSession, none⟩,
          ⟨Op.RequestPty "xterm" 80 40 modes, none⟩, ⟨Op.Setenv "A" "b", none⟩,
          ⟨Op.Run "true", some "boom"⟩, ⟨Op.Close, none⟩]) := by
  decide

/-- C8 (amended): when an operation other than `Close` fails with `e` during
`RunCommand`, the error returned is `surfaced` for its kind: for the dial, the
session creation, the pty request, the stdin pipe and the stderr pipe the
message of `e` behind a text naming the step, and for `Setenv` and `Run` the
error `e` itself. Two runs whose failing steps are of different kinds and fail
with the same `e` return different errors, unless one step is `Setenv` and the
other is `Run`. -/
theorem RunCommand_error_identifies_step (w1 w2 : World) (hist1 hist2 : List Event)
    (client1 client2 : SSHClient) (cmd1 cmd2 : SSHCommand) (ev1 ev2 : Event) (e : GoError)
    (h1 : ev1 ∈ (RunCommand w1 hist1 client1 cmd1).2) (he1 : ev1.err = some e)
    (hc1 : ev1.op.step ≠ Step.close)
    (h2 : ev2 ∈ (RunCommand w2 hist2 client2 cmd2).2) (he2 : ev2.err = some e)
    (hc2 : ev2.op.step ≠ Step.close)
    (hne : ev1.op.step ≠ ev2.op.step)
    (hpair : ¬ (ev1.op.step ∈ [Step.setenv, Step.run] ∧ ev2.op.step ∈ [Step.setenv, Step.run])) :
    (RunCommand w1 hist1 client1 cmd1).1 = some (surfaced ev1.op.step e) ∧
    (RunCommand w2 hist2 client2 cmd2).1 = some (surfaced ev2.op.step e) ∧
    (RunCommand w1 hist1 client1 cmd1).1 ≠ (RunCommand w2 hist2 client2 cmd2).1 := by
  obtain ⟨hr1, hs1⟩ := RunCommand_failed_event w1 hist1 client1 cmd1 ev1 e h1 he1 hc1
  obtain ⟨hr2, hs2⟩ := RunCommand_failed_event w2 hist2 client2 cmd2 ev2 e h2 he2 hc2
  refine ⟨hr1, hr2, ?_⟩
  rw [hr1, hr2, surfaced_eq_contextText, surfaced_eq_contextText]
  intro heq
  have hctx : contextText ev1.op.step ≠ contextText ev2.op.step := by
    revert hne hpair hs1 hs2
    generalize ev1.op.step = s1
    generalize ev2.op.step = s2
    cases s1 <;> cases s2 <;> decide
  exact append_ne_of_ne _ _ e hctx (Option.some.inj heq)

/-- The amended C8 for a dial failure and a `Run` failure with the same underlying
error: the two returned errors differ. -/
theorem RunCommand_error_identifies_step_witness :
    (RunCommand (failAt Step.dial "timeout") [] sampleClient (envOnly ["A=b"])).1 =
      some "Failed to dial: timeout" ∧
    (RunCommand (failAt Step.run "timeout") [] sampleClient (envOnly ["A=b"])).1 =
      some "timeout" ∧
    (RunCommand (failAt Step.dial "timeout") [] sampleClient (envOnly ["A=b"])).1 ≠
      (RunCommand (failAt Step.run "timeout") [] sampleClient (envOnly ["A=b"])).1 :=
  RunCommand_error_identifies_step (failAt Step.dial "timeout") (failAt Step.run "timeout")
    [] [] sampleClient sampleClient (envOnly ["A=b"]) (envOnly ["A=b"])
    ⟨Op.Dial "tcp" "example.test:22" sampleClient.Config, some "timeout"⟩
    ⟨Op.Run "true", some "timeout"⟩ "timeout"
    (by decide) rfl (by decide) (by decide) rfl (by decide) (by decide) (by decide)

/-! ## Claims about the command and its output stream -/

theorem RunCommand_steps (w : World) (hist : List Event) (client : SSHClient)
    (cmd : SSHCommand) :
    ∀ ev ∈ (RunCommand w hist client cmd).2,
      ev.op.step ∈ sessionSteps ++ prepareSteps ++ [Step.run] := by
  have hs := newSession_steps w hist client
  rcases RunCommand_cases w hist client cmd with
    ⟨e1, t1, hn, hr⟩ | ⟨t1, e1, t2, hn, hp, hr⟩ | ⟨t1, t2, hn, hp, hr⟩
  · rw [hn] at hs
    rw [hr]
    intro ev hev
    exact List.mem_append_left _ (List.mem_append_left _ (hs ev hev))
  · have hk := (prepareCommand_failFast w (hist ++ t1) cmd).2
    rw [hn] at hs
    rw [hp] at hk
    rw [hr]
    intro ev hev
    rcases List.mem_append.mp hev with hm | hm
    · rcases List.mem_append.mp hm with hm | hm
      · exact List.mem_append_left _ (List.mem_append_left _ (hs ev hm))
      · exact List.mem_append_left _ (List.mem_append_right _ (hk ev hm))
    · simp only [List.mem_singleton] at hm
      rw [hm]
      simp [Op.step, sessionSteps, prepareSteps]
  · have hk := (prepareCommand_failFast w (hist ++ t1) cmd).2
    rw [hn] at hs
    rw [hp] at hk
    rw [hr]
    intro ev hev
    rcases List.mem_append.mp hev with hm | hm
    · rcases List.mem_append.mp hm with hm | hm
      · exact List.mem_append_left _ (List.mem_append_left _ (hs ev hm))
      · exact List.mem_append_left _ (List.mem_append_right _ (hk ev hm))
    · simp only [List.mem_cons, List.mem_singleton, List.not_mem_nil, or_false] at hm
      rcases hm with rfl | rfl <;> simp [Op.step, sessionSteps, prepareSteps]

/-- C9: the `Stdout` field of the command is never used. Replacing it by any
other value (present or absent) leaves the result and the events of
`prepareCommand` and of `RunCommand` unchanged, and no run of either contains a
`StdoutPipe` request or an assignment of the session's output stream. -/
theorem RunCommand_ignores_Stdout (w : World) (hist : List Event) (client : SSHClient)
    (cmd : SSHCommand) (out : Option Stream) :
    prepareCommand w hist { cmd with Stdout := out } = prepareCommand w hist cmd ∧
    RunCommand w hist client { cmd with Stdout := out } = RunCommand w hist client cmd ∧
    eventsOfKind [Step.stdoutPipe, Step.setStdout] (prepareCommand w hist cmd).2 = [] ∧
    eventsOfKind [Step.stdoutPipe, Step.setStdout] (RunCommand w hist client cmd).2 = [] := by
  refine ⟨rfl, rfl, ?_, ?_⟩
  · apply eventsOfKind_eq_nil
    intro ev hev
    have hk := (prepareCommand_failFast w hist cmd).2 ev hev
    revert hk
    generalize ev.op.step = s
    cases s <;> decide
  · apply eventsOfKind_eq_nil
    intro ev hev
    have hk := RunCommand_steps w hist client cmd ev hev
    revert hk
    generalize ev.op.step = s
    cases s <;> decide

/-- C10: when `newSession` and `prepareCommand` both succeed, `RunCommand` returns
exactly the result of `session.Run`, called with `cmd.Path` as it is; the events
of the run are those of `newSession`, those of `prepareCommand`, then the one
`Run` and the `Close`, and that `Run` is the only `Run` event. `RunSSHCommand`
is `RunCommand` for the client with the given host and port 22 (dialled as
`host:22`) and the command whose `Path` is `command`. -/
theorem RunCommand_runs_path_once (w : World) (hist : List Event) (client : SSHClient)
    (cmd : SSHCommand) (t1 t2 : List Event)
    (hn : newSession w hist client = (none, t1))
    (hp : prepareCommand w (hist ++ t1) cmd = (none, t2)) :
    RunCommand w hist client cmd =
      (w (hist ++ t1 ++ t2) (Op.Run cmd.Path),
        t1 ++ t2 ++ [⟨Op.Run cmd.Path, w (hist ++ t1 ++ t2) (Op.Run cmd.Path)⟩,
          ⟨Op.Close, w (hist ++ t1 ++ t2 ++
            [⟨Op.Run cmd.Path, w (hist ++ t1 ++ t2) (Op.Run cmd.Path)⟩]) Op.Close⟩]) ∧
    eventsOfKind [Step.run] (RunCommand w hist client cmd).2 =
      [⟨Op.Run cmd.Path, w (hist ++ t1 ++ t2) (Op.Run cmd.Path)⟩] ∧
    (∀ (agentAuth : Option AuthMethod) (user host command : String),
      RunSSHCommand w hist agentAuth user host command =
        RunCommand w hist
          { Config := { User := user, Auth := [agentAuth] }, Host := host, Port := 22 }
          { Path := command, Env := ["LC_DIR=/"], Stdin := some Stream.osStdin,
            Stdout := some Stream.osStdout, Stderr := some Stream.osStderr } ∧
      Sprintf_addr host 22 = host ++ ":22") := by
  have hr : RunCommand w hist client cmd =
      (w (hist ++ t1 ++ t2) (Op.Run cmd.Path),
        t1 ++ t2 ++ [⟨Op.Run cmd.Path, w (hist ++ t1 ++ t2) (Op.Run cmd.Path)⟩,
          ⟨Op.Close, w (hist ++ t1 ++ t2 ++
            [⟨Op.Run cmd.Path, w (hist ++ t1 ++ t2) (Op.Run cmd.Path)⟩]) Op.Close⟩]) := by
    unfold RunCommand
    rw [hn]
    dsimp only
    rw [hp]
  refine ⟨hr, ?_, ?_⟩
  · have hs := newSession_steps w hist client
    have hk := (prepareCommand_failFast w (hist ++ t1) cmd).2
    rw [hn] at hs
    rw [hp] at hk
    have h1 : eventsOfKind [Step.run] t1 = [] := by
      apply eventsOfKind_eq_nil
      intro ev hev
      have := hs ev hev
      revert this
      generalize ev.op.step = s
      cases s <;> decide
    have h2 : eventsOfKind [Step.run] t2 = [] := by
      apply eventsOfKind_eq_nil
      intro ev hev
      have := hk ev hev
      revert this
      generalize ev.op.step = s
      cases s <;> decide
    rw [hr, eventsOfKind_append, eventsOfKind_append, h1, h2]
    simp [eventsOfKind, Op.step]
  · intro agentAuth user host command
    refine ⟨?_, ?_⟩
    · unfold RunSSHCommand
      dsimp only
      cases hrc : RunCommand w hist
          { Config := { User := user, Auth := [agentAuth] }, Host := host, Port := 22 }
          { Path := command, Env := ["LC_DIR=/"], Stdin := some Stream.osStdin,
            Stdout := some Stream.osStdout, Stderr := some Stream.osStderr } with
      | mk r t => cases r <;> rfl
    · unfold Sprintf_addr
      rw [String.append_assoc]
      rfl

/-- C10 on a transport where only `Run` fails: the error of `Run` is returned and the
run ends with the one `Run` and the `Close`. -/
theorem RunCommand_runs_path_once_witness :
    RunCommand (failAt Step.run "Process exited with status 1") [] sampleClient
        (envOnly ["A=b"]) =
      (some "Process exited with status 1",
        [⟨Op.Dial "tcp" "example.test:22" sampleClient.Config, none⟩, ⟨Op.NewSession, none⟩,
          ⟨Op.RequestPty "xterm" 80 40 modes, none⟩] ++ [⟨Op.Setenv "A" "b", none⟩] ++
          [⟨Op.Run "true", some "Process exited with status 1"⟩, ⟨Op.Close, none⟩]) :=
  (RunCommand_runs_path_once (failAt Step.run "Process exited with status 1") [] sampleClient
    (envOnly ["A=b"])
    [⟨Op.Dial "tcp" "example.test:22" sampleClient.Config, none⟩, ⟨Op.NewSession, none⟩,
      ⟨Op.RequestPty "xterm" 80 40 modes, none⟩]
    [⟨Op.Setenv "A" "b", none⟩] (by decide) (by decide)).1

end Gocmd
